import Mathlib

/-!
Verification of the Marqo demo application (`streamlit_marqo_demo.py`).

The development shallowly embeds the session-state logic of the app: the
pagination state machine (`reset_state`, the search-result installation of
`render_results`, the Prev/Next button handlers of
`render_results_pagination`), the row-selection of `render_result_rows`,
the highlight-resolution logic, `create_filter_str` and
`get_search_method`.  Remote calls to the Marqo client are modelled as
oracles: the outcome of the remote call is a parameter of type
`Except MarqoError _`, and an uncaught Python exception is modelled by an
`Except.error` return value.
-/

/-- Line 19 of the source: the `"TENSOR"` search-mode constant. -/
def TENSOR_SEARCH_MODE : String := "TENSOR"

/-- Line 20 of the source: the `"LEXICAL"` search-mode constant. -/
def LEXICAL_SEARCH_MODE : String := "LEXICAL"

/-- The dynamically typed `_highlights` payload of a hit: either a JSON
sequence (Python `list`) or a mapping from field name to excerpt (Python
`dict`, whose iteration order is insertion order, modelled by an
association list). -/
inductive Highlights where
  | seq (items : List String)
  | mapping (entries : List (String × String))
  deriving DecidableEq

/-- A single hit of a result set, with the fields the app reads at lines
138-142 of the source.  The `_score` field is only interpolated into a
display string and plays no role in any claim, so it is omitted. -/
structure SearchResult where
  url : String := ""
  title : String := ""
  body : String := ""
  highlights : Highlights := .mapping []
  deriving DecidableEq

/-- A search response: the app only ever reads its `"hits"` entry. -/
structure ResultSet where
  hits : List SearchResult
  deriving DecidableEq

/-- The session state of the app: `st.session_state["results"]` and
`st.session_state["page"]`.  `results = none` models the `{}` placeholder
installed at session start (lines 218-219) and by `reset_state`;
`results = some R` models a stored search response. -/
structure SessionState where
  results : Option ResultSet
  page : Int
  deriving DecidableEq

/-- The state set up by `main` (lines 218-222): `results = {}`,
`page = -1`. -/
def initState : SessionState := { results := none, page := -1 }

/-- Lines 48-51: `reset_state` sets `results = {}` and `page = -1`. -/
def reset_state (_s : SessionState) : SessionState :=
  { results := none, page := -1 }

/-- Lines 206-211 of `render_results`: store the response in
`st.session_state["results"]`, then set `page` to `0` when its `hits`
list is truthy (non-empty) and to `-1` otherwise.  This update is
unconditional code, it cannot fail. -/
def install (results : ResultSet) (s : SessionState) : SessionState :=
  let s1 : SessionState := { s with results := some results }
  if results.hits ≠ [] then { s1 with page := 0 } else { s1 with page := -1 }

/-- Lines 167-170 of `render_results_pagination`: the Next button handler,
`if next_btn and (st.session_state["page"] < 2): st.session_state["page"] += 1`,
with the button taken as pressed. -/
def next (s : SessionState) : SessionState :=
  if s.page < 2 then { s with page := s.page + 1 } else s

/-- Lines 162-165 of `render_results_pagination`: the Prev button handler,
`if prev_btn and (st.session_state["page"] > 0): st.session_state["page"] -= 1`,
with the button taken as pressed. -/
def previous (s : SessionState) : SessionState :=
  if s.page > 0 then { s with page := s.page - 1 } else s

/-- Lines 157-174 of `render_results_pagination`, state effect only: the
button handlers run (Prev first, then Next, in source order) only when
`page > -1`; otherwise the buttons are not rendered and the state is
untouched. -/
def render_results_pagination (prev_btn next_btn : Bool) (s : SessionState) :
    SessionState :=
  if s.page > -1 then
    let s1 := if prev_btn then previous s else s
    if next_btn then next s1 else s1
  else s

/-- The errors of the `marqo.errors` module that the app distinguishes
(line 8 of the source), plus a catch-all for any other failure. -/
inductive MarqoError where
  | indexNotFound
  | indexAlreadyExists
  | other (msg : String)
  deriving DecidableEq

/-- A user-visible message emitted through `st.success` / `st.error`. -/
inductive UIMessage where
  | success (text : String)
  | error (text : String)
  deriving DecidableEq

/-- Lines 72-77: `delete_index` calls the remote delete (whose outcome is
the `deleteResult` oracle), reports success, and catches exactly
`IndexNotFoundError`, surfacing it as the warning
`"Index does not exist."`; any other exception propagates.  The function
never touches the session state. -/
def delete_index (deleteResult : Except MarqoError Unit) :
    Except MarqoError UIMessage :=
  match deleteResult with
  | .ok _ => .ok (.success "Index successfully deleted.")
  | .error .indexNotFound => .ok (.error "Index does not exist.")
  | .error e => .error e

/-- Lines 193-211 of `render_results`, state effect: when
`search_text != "" and search_text is not None and search_btn`, the remote
search runs (its outcome is the `searchResult` oracle).  The call at line
198 is not wrapped in any try/except, so an exception propagates before
any state update; on success lines 206-211 install the response.  Line 213
then runs `render_results_pagination`. -/
def render_results (searchResult : Except MarqoError ResultSet)
    (search_text : Option String) (search_btn prev_btn next_btn : Bool)
    (s : SessionState) : Except MarqoError SessionState :=
  if search_text ≠ some "" ∧ search_text ≠ none ∧ search_btn = true then
    match searchResult with
    | .error e => .error e
    | .ok results =>
        .ok (render_results_pagination prev_btn next_btn (install results s))
  else
    .ok (render_results_pagination prev_btn next_btn s)

/-- Python `s.split(" ")` (line 104): split on every occurrence of the
single-space separator, keeping empty fragments; the empty string yields
`[""]`. -/
def splitOnSingleSpace (s : String) : List String :=
  (s.toList.splitOn ' ').map List.asString

/-- Lines 103-106: `get_search_method` picks `"TENSOR"` when the
space-separated word count of the query exceeds 1, else `"LEXICAL"`. -/
def get_search_method (search_text : String) : String :=
  let word_count := (splitOnSingleSpace search_text).length
  if word_count > 1 then TENSOR_SEARCH_MODE else LEXICAL_SEARCH_MODE

/-- Lines 184-190: `create_filter_str` folds over the selected labels,
appending `" OR "` before every clause except the first, and
`scraped_from:(label)` for each label. -/
def create_filter_str (filter_list : List String) : String :=
  filter_list.foldl
    (fun filter_string field =>
      filter_string ++ (if filter_string ≠ "" then " OR " else "")
        ++ "scraped_from:(" ++ field ++ ")")
    ""

/-- Lines 142-147 of `render_result_rows`: highlight resolution for one
hit.  A `list`-typed payload resolves to `None`; a `dict`-typed payload
resolves to `list(highlights.values())[0]` in Tensor mode (raising
`IndexError` on an empty dict, modelled by `Except.error`) and to `None`
otherwise. -/
def resolve_highlights (search_method : String) (highlights : Highlights) :
    Except String (Option String) :=
  match highlights with
  | .seq _ => .ok none
  | .mapping entries =>
      if search_method = TENSOR_SEARCH_MODE then
        match entries.map Prod.snd with
        | [] => .error "IndexError: list index out of range"
        | v :: _ => .ok (some v)
      else .ok none

/-- The value a successful highlight resolution returns; a helper for
stating the success path of the rendering loop. -/
def resolveOk (search_method : String) (highlights : Highlights) :
    Option String :=
  match resolve_highlights search_method highlights with
  | .ok v => v
  | .error _ => none

/-- The loop body of `render_result_rows` (lines 137-154), one recursive
step per row of `enumerate(hits)`.  For every row — before the
index-window check — lines 142-147 resolve the highlight payload, which
can raise `IndexError` (Tensor mode, empty-mapping payload); the raised
exception aborts the whole loop, modelled by the `Except.error` result
absorbing the remaining rows.  A row is rendered (line 151) when its
index `i` satisfies `i >= page * 10 and i < page * 10 + 10`; a rendered
row is the hit paired with its resolved highlight (lines 152-154). -/
def render_rows_loop (search_method : String) (page : Int) :
    List (Nat × SearchResult) →
      Except String (List (SearchResult × Option String))
  | [] => .ok []
  | row :: rest =>
      match resolve_highlights search_method row.2.highlights with
      | .error e => .error e
      | .ok readable_highlights =>
          if page * 10 ≤ (row.1 : Int) ∧ (row.1 : Int) < page * 10 + 10 then
            (render_rows_loop search_method page rest).map
              (fun displayed => (row.2, readable_highlights) :: displayed)
          else
            render_rows_loop search_method page rest

/-- Lines 136-154: `render_result_rows` runs the loop over
`enumerate(st.session_state["results"]["hits"])`. -/
def render_result_rows (search_method : String) (page : Int)
    (hits : List SearchResult) :
    Except String (List (SearchResult × Option String)) :=
  render_rows_loop search_method page hits.enum

/-- Modelled from the spec: `visibleSlice()` returns
`results.hits[currentPage*pageSize : currentPage*pageSize+pageSize]`
(page size 10) when `currentPage >= 0`, and the empty sequence when the
cursor is the `-1` sentinel. -/
def visibleSlice (page : Int) (hits : List SearchResult) : List SearchResult :=
  if 0 ≤ page then (hits.drop (page * 10).toNat).take 10 else []

/-- Modelled from the spec: joining a list of clauses with `" OR "`
separators, in input order; the empty list yields the empty string. -/
def joinOr : List String → String
  | [] => ""
  | [c] => c
  | c :: c2 :: rest => c ++ " OR " ++ joinOr (c2 :: rest)

/-- The four operations of the paginator state machine named by the spec:
`install` (lines 206-211), `next` (lines 167-170), `previous`
(lines 162-165) and `reset` (lines 48-51). -/
inductive PaginatorOp where
  | install (results : ResultSet)
  | next
  | previous
  | reset

/-- Dispatch one paginator operation. -/
def applyOp : PaginatorOp → SessionState → SessionState
  | .install r, s => install r s
  | .next, s => next s
  | .previous, s => previous s
  | .reset, s => reset_state s

/-- Run a sequence of paginator operations from a state. -/
def run (ops : List PaginatorOp) (s : SessionState) : SessionState :=
  ops.foldl (fun t op => applyOp op t) s

/-- Preservation of the page-cursor range by every paginator operation. -/
theorem applyOp_page_range (op : PaginatorOp) (s : SessionState)
    (h : -1 ≤ s.page ∧ s.page ≤ 2) :
    -1 ≤ (applyOp op s).page ∧ (applyOp op s).page ≤ 2 := by
  obtain ⟨h1, h2⟩ := h
  cases op with
  | install r =>
      simp only [applyOp, install]
      split <;> simp
  | next =>
      simp only [applyOp, next]
      split
      · constructor <;> simp <;> omega
      · exact ⟨h1, h2⟩
  | previous =>
      simp only [applyOp, previous]
      split
      · constructor <;> simp <;> omega
      · exact ⟨h1, h2⟩
  | reset => simp [applyOp, reset_state]

/-- Range invariance under any operation sequence, from any state in
range. -/
theorem run_page_range (ops : List PaginatorOp) :
    ∀ s : SessionState, -1 ≤ s.page ∧ s.page ≤ 2 →
      -1 ≤ (run ops s).page ∧ (run ops s).page ≤ 2 := by
  induction ops with
  | nil => intro s h; exact h
  | cons op ops ih =>
      intro s h
      exact ih (applyOp op s) (applyOp_page_range op s h)

/-- C2: installing a result set `R` stores `R` and sets the page cursor to
`0` when `R.hits` is non-empty and to `-1` when `R.hits` is empty; the
update is a total function, it never fails. -/
theorem install_sets_page (R : ResultSet) (s : SessionState) :
    (install R s).results = some R ∧
    (R.hits ≠ [] → (install R s).page = 0) ∧
    (R.hits = [] → (install R s).page = -1) := by
  refine ⟨?_, ?_, ?_⟩ <;> simp only [install] <;> split <;> simp_all

/-- Witness for C2: a one-hit result set installs with cursor `0`, and an
empty result set installs with cursor `-1`. -/
theorem install_sets_page_witness :
    ({ hits := [{}] } : ResultSet).hits ≠ [] ∧
    (install { hits := [{}] } initState).page = 0 ∧
    ({ hits := [] } : ResultSet).hits = [] ∧
    (install { hits := [] } initState).page = -1 :=
  ⟨by decide, (install_sets_page { hits := [{}] } initState).2.1 (by decide),
   rfl, (install_sets_page { hits := [] } initState).2.2 rfl⟩

/-- C3: from the initial state (`page = -1`, empty result set), every
sequence of `install`, `next`, `previous` and `reset` operations keeps the
page cursor in `{-1, 0, 1, 2}`. -/
theorem run_page_in_range (ops : List PaginatorOp) :
    (run ops initState).page = -1 ∨ (run ops initState).page = 0 ∨
    (run ops initState).page = 1 ∨ (run ops initState).page = 2 := by
  have h := run_page_range ops initState (by simp [initState])
  omega

/-- C4: `next` increments the cursor when it is below `2` and is a no-op
at `2`; `previous` decrements the cursor when it is above `0` and is a
no-op at `0` and at `-1`. -/
theorem next_previous_spec (s : SessionState) :
    (s.page < 2 → (next s).page = s.page + 1) ∧
    (s.page = 2 → next s = s) ∧
    (0 < s.page → (previous s).page = s.page - 1) ∧
    (s.page = 0 ∨ s.page = -1 → previous s = s) := by
  refine ⟨?_, ?_, ?_, ?_⟩ <;> intro h <;>
    simp only [next, previous] <;> split <;> simp_all
  omega

/-- Witness for C4 at concrete cursor values 1, 2, 1, 0. -/
theorem next_previous_spec_witness :
    (next { results := none, page := 1 }).page = 2 ∧
    next { results := none, page := 2 } = { results := none, page := 2 } ∧
    (previous { results := none, page := 1 }).page = 0 ∧
    previous { results := none, page := 0 } = { results := none, page := 0 } :=
  ⟨(next_previous_spec _).1 (by decide), (next_previous_spec _).2.1 rfl,
   (next_previous_spec _).2.2.1 (by decide),
   (next_previous_spec _).2.2.2 (Or.inl rfl)⟩

/-- C5: the navigation operations mutate the cursor only; the stored
result set is identical before and after `next` and `previous`. -/
theorem nav_preserves_results (s : SessionState) :
    (next s).results = s.results ∧ (previous s).results = s.results := by
  constructor <;> simp only [next, previous] <;> split <;> rfl

/-- C9: highlight resolution yields no highlight for a sequence-typed
payload in either mode (in particular for the empty sequence), the first
excerpt of the first entry (insertion order) for a mapping in Tensor mode, and no
highlight for a mapping in Lexical mode. -/
theorem highlight_resolution_spec (m k v : String)
    (rest entries : List (String × String)) :
    resolve_highlights m (.seq []) = .ok none ∧
    resolve_highlights TENSOR_SEARCH_MODE (.mapping ((k, v) :: rest)) =
      .ok (some v) ∧
    resolve_highlights LEXICAL_SEARCH_MODE (.mapping entries) = .ok none := by
  refine ⟨rfl, rfl, ?_⟩
  simp [resolve_highlights, LEXICAL_SEARCH_MODE, TENSOR_SEARCH_MODE]

/-- C10: in Tensor mode, resolution succeeds on sequence payloads and on
non-empty mappings, but on the empty mapping (the default when the
`_highlights` field is absent, line 142) it raises `IndexError` instead of
resolving to no highlight. -/
theorem tensor_empty_mapping_fails (items : List String) (k v : String)
    (rest : List (String × String)) :
    resolve_highlights TENSOR_SEARCH_MODE (.mapping []) =
      .error "IndexError: list index out of range" ∧
    (resolve_highlights TENSOR_SEARCH_MODE (.mapping [])).isOk = false ∧
    (resolve_highlights TENSOR_SEARCH_MODE (.seq items)).isOk = true ∧
    (resolve_highlights TENSOR_SEARCH_MODE (.mapping ((k, v) :: rest))).isOk =
      true := by
  exact ⟨rfl, rfl, rfl, rfl⟩

/-- A string with `")"` appended is never empty. -/
theorem append_close_ne_empty (s : String) : s ++ ")" ≠ "" := by
  intro h
  have h1 : (s ++ ")").length = ("" : String).length := by rw [h]
  rw [String.length_append] at h1
  have h2 : (")" : String).length = 1 := rfl
  have h3 : ("" : String).length = 0 := rfl
  omega

/-- Prepending onto the head of a join distributes over the join. -/
theorem joinOr_append_head (a b : String) (rest : List String) :
    joinOr ((a ++ b) :: rest) = a ++ joinOr (b :: rest) := by
  cases rest with
  | nil => rfl
  | cons c cs => simp [joinOr, String.append_assoc]

/-- The fold of `create_filter_str`, started from any non-empty
accumulator, joins the accumulator with the clauses of the remaining
labels. -/
theorem create_filter_str_foldl (l : List String) :
    ∀ acc : String, acc ≠ "" →
      List.foldl (fun filter_string field =>
          filter_string ++ (if filter_string ≠ "" then " OR " else "")
            ++ "scraped_from:(" ++ field ++ ")") acc l
        = joinOr (acc :: l.map fun field => "scraped_from:(" ++ field ++ ")") := by
  induction l with
  | nil => intro acc _; rfl
  | cons f fs ih =>
      intro acc h
      simp only [List.foldl_cons, List.map_cons]
      rw [if_pos h]
      rw [ih _ (append_close_ne_empty _)]
      have hg : acc ++ " OR " ++ "scraped_from:(" ++ f ++ ")"
          = (acc ++ " OR ") ++ ("scraped_from:(" ++ f ++ ")") := by
        simp only [String.append_assoc]
      rw [hg, joinOr_append_head]
      rfl

/-- C7: `create_filter_str` joins one `scraped_from:(label)` clause per
label, in input order, separated by `" OR "`; in particular the empty
list yields `""`, `["faq"]` yields `"scraped_from:(faq)"`, and
`["faq", "blogs"]` yields
`"scraped_from:(faq) OR scraped_from:(blogs)"`. -/
theorem create_filter_str_spec (l : List String) :
    create_filter_str l =
      joinOr (l.map fun field => "scraped_from:(" ++ field ++ ")") ∧
    create_filter_str [] = "" ∧
    create_filter_str ["faq"] = "scraped_from:(faq)" ∧
    create_filter_str ["faq", "blogs"] =
      "scraped_from:(faq) OR scraped_from:(blogs)" := by
  refine ⟨?_, rfl, by decide, by decide⟩
  cases l with
  | nil => rfl
  | cons f fs =>
      simp only [create_filter_str, List.foldl_cons, List.map_cons]
      rw [if_neg (by simp)]
      have h0 : ("" ++ "" ++ "scraped_from:(" ++ f ++ ")" : String)
          = "scraped_from:(" ++ f ++ ")" := by
        simp only [String.empty_append]
      rw [h0, create_filter_str_foldl _ _ (append_close_ne_empty _)]

/-- C8: search-mode selection splits the query on single spaces and picks
Tensor mode exactly when the token count exceeds 1; `"hello"` yields
Lexical, `"hello world"` yields Tensor, and `""` (which splits into one
empty token) yields Lexical. -/
theorem get_search_method_spec :
    (∀ s : String, get_search_method s =
      if 1 < (splitOnSingleSpace s).length then TENSOR_SEARCH_MODE
      else LEXICAL_SEARCH_MODE) ∧
    splitOnSingleSpace "" = [""] ∧
    get_search_method "hello" = LEXICAL_SEARCH_MODE ∧
    get_search_method "hello world" = TENSOR_SEARCH_MODE ∧
    get_search_method "" = LEXICAL_SEARCH_MODE :=
  ⟨fun _ => rfl, by decide, by decide, by decide, by decide⟩

/-- Counterexample to C1: a search that hits a missing index is not
caught; the `IndexNotFound` error propagates out of `render_results`
(the search call at line 198 has no surrounding try/except), so it is not
surfaced as a user-visible warning. -/
theorem search_index_not_found_uncaught :
    render_results (.error .indexNotFound) (some "hello") true false false
      initState = .error MarqoError.indexNotFound := rfl

/-- With both pagination buttons unpressed, `render_results_pagination`
leaves the state unchanged. -/
theorem render_results_pagination_id (s : SessionState) :
    render_results_pagination false false s = s := by
  simp only [render_results_pagination]
  split <;> rfl

/-- C1 (amended): when deletion targets a missing index the
`IndexNotFound` error is caught and surfaced as the user-visible warning
`"Index does not exist."` (and `delete_index` never touches the session
state); when a search targets a missing index the error is not caught: it
propagates out of `render_results`, the session state receiving no
update. -/
theorem index_not_found_handling (s : SessionState) (t : Option String)
    (h1 : t ≠ some "") (h2 : t ≠ none) :
    delete_index (.error .indexNotFound) = .ok (.error "Index does not exist.") ∧
    render_results (.error .indexNotFound) t true false false s =
      .error MarqoError.indexNotFound := by
  refine ⟨rfl, ?_⟩
  rw [render_results, if_pos ⟨h1, h2, rfl⟩]

/-- Witness for C1 (amended) at the query `"hello"` and the initial
state. -/
theorem index_not_found_handling_witness :
    (some "hello" ≠ some "") ∧ ((some "hello" : Option String) ≠ none) ∧
    delete_index (.error .indexNotFound) = .ok (.error "Index does not exist.") ∧
    render_results (.error .indexNotFound) (some "hello") true false false
      initState = .error MarqoError.indexNotFound :=
  ⟨by decide, by decide,
   (index_not_found_handling initState (some "hello") (by decide) (by decide)).1,
   (index_not_found_handling initState (some "hello") (by decide) (by decide)).2⟩

/-- Filtering an index-annotated list by an upper index bound keeps
exactly an initial segment. -/
theorem enumFrom_filter_lt {α : Type*} (b : Nat) :
    ∀ (l : List α) (n : Nat),
      (l.enumFrom n).filter (fun r => decide (r.1 < b)) =
        (l.take (b - n)).enumFrom n := by
  intro l
  induction l with
  | nil => intro n; simp
  | cons x l ih =>
      intro n
      by_cases h : n < b
      · have hb : b - n = (b - (n + 1)) + 1 := by omega
        simp [List.enumFrom_cons, List.filter_cons, h, hb,
          List.take_succ_cons, ih (n + 1)]
      · have hb : b - n = 0 := by omega
        have hb2 : b - (n + 1) = 0 := by omega
        have := ih (n + 1)
        rw [hb2] at this
        simp [List.enumFrom_cons, List.filter_cons, h, hb,
          List.take_zero, List.enumFrom_nil] at this ⊢
        exact this

/-- Filtering an index-annotated list by a lower index bound below all
indices keeps everything. -/
theorem enumFrom_filter_ge_all {α : Type*} (a : Nat) :
    ∀ (l : List α) (n : Nat), a ≤ n →
      (l.enumFrom n).filter (fun r => decide (a ≤ r.1)) = l.enumFrom n := by
  intro l
  induction l with
  | nil => intro n _; simp
  | cons x l ih =>
      intro n h
      simp [List.enumFrom_cons, List.filter_cons, h,
        ih (n + 1) (by omega)]

/-- Filtering an index-annotated list by a lower index bound keeps
exactly a final segment. -/
theorem enumFrom_filter_ge {α : Type*} (a : Nat) :
    ∀ (l : List α) (n : Nat), n ≤ a →
      (l.enumFrom n).filter (fun r => decide (a ≤ r.1)) =
        (l.drop (a - n)).enumFrom a := by
  intro l
  induction l with
  | nil => intro n _; simp
  | cons x l ih =>
      intro n h
      by_cases ha : a ≤ n
      · have hn : a = n := by omega
        rw [hn, enumFrom_filter_ge_all n (x :: l) n le_rfl]
        simp
      · have h1 : ¬(a ≤ n) := ha
        have h2 : a - n = (a - (n + 1)) + 1 := by omega
        simp [List.enumFrom_cons, List.filter_cons, h1, h2,
          List.drop_succ_cons, ih (n + 1) (by omega)]

/-- Keeping the rows of `enumerate(l)` whose index lies in
`[a, a + 10)` yields exactly the slice `l[a : a + 10]`. -/
theorem slice_eq {α : Type*} (l : List α) (a : Nat) :
    ((l.enum.filter fun r => decide (a ≤ r.1) && decide (r.1 < a + 10)).map
        Prod.snd)
      = (l.drop a).take 10 := by
  have h1 : (l.enum.filter fun r => decide (a ≤ r.1) && decide (r.1 < a + 10))
      = ((l.enum.filter fun r => decide (r.1 < a + 10)).filter fun r =>
          decide (a ≤ r.1)) := by
    rw [List.filter_filter]
  rw [h1]
  have h2 : l.enum = l.enumFrom 0 := rfl
  rw [h2, enumFrom_filter_lt (a + 10) l 0, Nat.sub_zero]
  rw [enumFrom_filter_ge a (l.take (a + 10)) 0 (Nat.zero_le a), Nat.sub_zero]
  rw [List.enumFrom_map_snd]
  rw [List.drop_take]
  congr 1
  omega

/-- The window filter of line 151 selects exactly the `visibleSlice` of
the spec: for a cursor `p ≥ 0` the hits at indices
`[p*10, p*10 + 10)` (ten items, or fewer at the tail), and for the `-1`
sentinel (indeed for any negative cursor) nothing. -/
theorem window_filter_eq_visibleSlice (p : Int) (hits : List SearchResult) :
    ((hits.enum.filter fun row =>
        decide (p * 10 ≤ (row.1 : Int)) &&
          decide ((row.1 : Int) < p * 10 + 10)).map Prod.snd)
      = visibleSlice p hits := by
  by_cases hp : 0 ≤ p
  · rw [visibleSlice, if_pos hp]
    have hcong : ∀ r ∈ hits.enum,
        (decide (p * 10 ≤ (r.1 : Int)) && decide ((r.1 : Int) < p * 10 + 10))
          = (decide ((p * 10).toNat ≤ r.1) &&
              decide (r.1 < (p * 10).toNat + 10)) := by
      intro r _
      have e1 : (p * 10 ≤ (r.1 : Int)) ↔ ((p * 10).toNat ≤ r.1) := by omega
      have e2 : ((r.1 : Int) < p * 10 + 10) ↔ (r.1 < (p * 10).toNat + 10) := by
        omega
      rw [decide_eq_decide.mpr e1, decide_eq_decide.mpr e2]
    rw [List.filter_congr hcong]
    exact slice_eq hits (p * 10).toNat
  · rw [visibleSlice, if_neg hp]
    have hnil : (hits.enum.filter fun row =>
        decide (p * 10 ≤ (row.1 : Int)) &&
          decide ((row.1 : Int) < p * 10 + 10)) = [] := by
      apply List.filter_eq_nil_iff.mpr
      intro r _
      simp only [Bool.and_eq_true, decide_eq_true_eq, not_and]
      intro _
      omega
    rw [hnil, List.map_nil]

/-- The success path of the rendering loop: when every hit of the tail
resolves, the loop returns exactly the window rows, each hit paired with
its resolved highlight. -/
theorem render_rows_loop_ok (m : String) (p : Int) :
    ∀ (l : List SearchResult) (n : Nat),
      (∀ r ∈ l, (resolve_highlights m r.highlights).isOk = true) →
      render_rows_loop m p (l.enumFrom n)
        = .ok ((l.enumFrom n).filterMap fun row =>
            if p * 10 ≤ (row.1 : Int) ∧ (row.1 : Int) < p * 10 + 10
            then some (row.2, resolveOk m row.2.highlights) else none) := by
  intro l
  induction l with
  | nil => intro n _; rfl
  | cons x xs ih =>
      intro n h
      have hx := h x (List.mem_cons_self x xs)
      rw [List.enumFrom_cons, render_rows_loop, List.filterMap_cons]
      cases hres : resolve_highlights m x.highlights with
      | error e => rw [hres] at hx; simp [Except.isOk, Except.toBool] at hx
      | ok v =>
          have hok : resolveOk m x.highlights = v := by
            rw [resolveOk, hres]
          have hxs : ∀ r ∈ xs, (resolve_highlights m r.highlights).isOk = true :=
            fun r hr => h r (List.mem_cons_of_mem x hr)
          by_cases hw : p * 10 ≤ (n : Int) ∧ (n : Int) < p * 10 + 10
          · simp only [hres, if_pos hw, ih (n + 1) hxs, Except.map]
            simp [hok, hw]
          · simp only [hres, if_neg hw, ih (n + 1) hxs]

/-- Projecting the hits out of the rendered window rows gives the plain
window filter. -/
theorem filterMap_window (m : String) (p : Int) (l : List (Nat × SearchResult)) :
    ((l.filterMap fun row =>
        if p * 10 ≤ (row.1 : Int) ∧ (row.1 : Int) < p * 10 + 10
        then some (row.2, resolveOk m row.2.highlights) else none).map Prod.fst)
      = (l.filter fun row =>
          decide (p * 10 ≤ (row.1 : Int)) && decide ((row.1 : Int) < p * 10 + 10)).map
        Prod.snd := by
  induction l with
  | nil => rfl
  | cons x xs ih =>
      by_cases hw : p * 10 ≤ (x.1 : Int) ∧ (x.1 : Int) < p * 10 + 10
      · simp [List.filterMap_cons, List.filter_cons, hw, ih]
      · simp [List.filterMap_cons, List.filter_cons, hw, ih]

/-- Counterexample to C6: in Tensor mode, a hit whose highlights payload
is the empty mapping makes the rendering loop raise `IndexError` — the
resolution at lines 142-147 runs before the window check at line 151 —
so the displayed subsequence is not the claimed slice: at cursor 0 the
claim demands that the single hit be displayed, yet rendering fails. -/
theorem render_rows_tensor_crash :
    render_result_rows TENSOR_SEARCH_MODE 0
        [{ highlights := Highlights.mapping [] }] =
      .error "IndexError: list index out of range" ∧
    visibleSlice 0 [{ highlights := Highlights.mapping [] }] =
      [{ highlights := Highlights.mapping [] }] ∧
    (render_result_rows TENSOR_SEARCH_MODE 0
          [{ highlights := Highlights.mapping [] }]).map
        (fun out => out.map Prod.fst) ≠
      .ok (visibleSlice 0 [{ highlights := Highlights.mapping [] }]) :=
  ⟨rfl, rfl, fun hcontra => Except.noConfusion hcontra⟩

/-- C6 (amended): whenever the highlight resolution succeeds for every
hit — in particular in Lexical mode, or in Tensor mode when no hit
carries an empty-mapping highlights payload — the displayed subsequence
is exactly the `visibleSlice` of the spec: the hits at indices
`[p*10, p*10 + 10)` for a cursor `p ≥ 0` (ten items, or fewer at the
tail), and nothing for the `-1` sentinel; if any resolution fails, the
rendering aborts with `IndexError` instead (see the counterexample). -/
theorem render_rows_eq_visibleSlice (m : String) (p : Int)
    (hits : List SearchResult)
    (h : ∀ r ∈ hits, (resolve_highlights m r.highlights).isOk = true) :
    (render_result_rows m p hits).map (fun out => out.map Prod.fst) =
      .ok (visibleSlice p hits) := by
  have h2 : hits.enum = hits.enumFrom 0 := rfl
  rw [render_result_rows, h2, render_rows_loop_ok m p hits 0 h]
  rw [Except.map]
  rw [filterMap_window m p (hits.enumFrom 0)]
  rw [← h2, window_filter_eq_visibleSlice]

/-- Witness for C6 (amended): two hits in Lexical mode at cursor 0, both
resolving successfully, displayed exactly as the slice. -/
theorem render_rows_eq_visibleSlice_witness :
    (∀ r ∈ [({ title := "a" } : SearchResult),
            { title := "b", highlights := Highlights.seq [] }],
        (resolve_highlights LEXICAL_SEARCH_MODE r.highlights).isOk = true) ∧
    (render_result_rows LEXICAL_SEARCH_MODE 0
          [({ title := "a" } : SearchResult),
           { title := "b", highlights := Highlights.seq [] }]).map
        (fun out => out.map Prod.fst) =
      .ok (visibleSlice 0
          [({ title := "a" } : SearchResult),
           { title := "b", highlights := Highlights.seq [] }]) :=
  ⟨by decide,
   render_rows_eq_visibleSlice LEXICAL_SEARCH_MODE 0
     [{ title := "a" }, { title := "b", highlights := Highlights.seq [] }]
     (by decide)⟩
